import Mathlib

/-!
# Verification of the object/type subsystem (`vm/src/obj/objtype.rs`)

Shallow embedding of the type-object model, the C3-style MRO linearizer
(`take_next_base`, `linearise_mro`, `new`), the attribute-resolution engine
(`type_getattribute`), the instantiation protocol (`type_call`), the
constructor dispatcher (`type_new`) and the ancestry queries
(`_mro`, `base_classes`, `isinstance`, `issubclass`).

Modelling conventions:
* An object handle (`PyObjectRef`) becomes a value of the inductive type
  `PyObject` carrying an explicit identity (`get_id`); identity comparison
  (`IdProtocol::is` / `get_id`) is equality of that field, never structural
  equality, exactly as the source compares handles.
* Fresh allocation (`PyObject::new`) takes the fresh identity as an explicit
  `newId` argument.
* A Rust `panic!` / `.unwrap()` on `None` becomes the `PyRes.abort` outcome;
  a returned `Err(...)` becomes `PyRes.err`; `Ok(v)` becomes `PyRes.ok v`.
* Calls into the eval layer (`vm.invoke`, `vm.call_get_descriptor`,
  `vm.get_method`) are external capabilities: where a function only forwards
  their result, the result is an explicit parameter; where a function's
  whole job is to select which call to make (`type_getattribute`), the
  selected call is returned as a `LookupOutcome` value.
-/

mutual

/-- Kinds of runtime objects. `Class`, `Instance` follow the source's
`PyObjectKind` (`objtype.rs` pattern-matches exactly these fields); `Dict`,
`Str` and `Tup` are modelled from the spec: the ordered string-keyed map, the
string object type and tuple construction are pre-existing primitives consumed
through narrow interfaces. `Other` stands for every remaining kind. -/
inductive PyObjectKind : Type where
  | Class (name : String) (dict : PyObject) (mro : List PyObject)
  | Instance (dict : PyObject)
  | Dict (entries : List (String × PyObject))
  | Str (s : String)
  | Tup (elements : List PyObject)
  | Other

/-- An object handle: identity, optional type reference (`typ` field of
`PyObject`), and kind. -/
inductive PyObject : Type where
  | mk (id : Nat) (typ : Option PyObject) (kind : PyObjectKind)

end

/-- Identity of an object handle (`IdProtocol::get_id`). -/
def PyObject.get_id : PyObject → Nat
  | .mk i _ _ => i

/-- The `typ` field of an object (may be unset only during bootstrap). -/
def PyObject.typ : PyObject → Option PyObject
  | .mk _ t _ => t

/-- The kind of an object. -/
def PyObject.kind : PyObject → PyObjectKind
  | .mk _ _ k => k

/-- Identity comparison (`IdProtocol::is`): same underlying cell. Modelled
from the spec: equality used by the type system is identity, never structural
equality. -/
def PyObject.is (a b : PyObject) : Bool := a.get_id == b.get_id

/-- Errors returned (as `Err`) to the caller. -/
inductive PyErr : Type where
  | typeError (msg : String)
  | typeMismatch (expected got : PyObject)
  | attributeNotFound (mcl cls : PyObject) (name : String)

/-- Outcome of a fallible operation: `ok`/`err` are the two `PyResult`
branches, `abort` is a Rust panic (`unwrap` of `None`), which terminates the
process instead of returning. -/
inductive PyRes (α : Type) : Type where
  | ok (a : α)
  | err (e : PyErr)
  | abort

/-- Entries of a dict object. Modelled from the spec: the dictionary used for
attribute storage is an ordered string-keyed map consumed with get/set/iterate
(`objdict::get_elements`); for a non-dict object there are no entries. -/
def dict_entries (d : PyObject) : List (String × PyObject) :=
  match d.kind with
  | .Dict entries => entries
  | _ => []

/-- Lookup in the string-keyed map held by a dict object. Modelled from the
spec: the map primitive's get. -/
def dict_get (d : PyObject) (name : String) : Option PyObject :=
  ((dict_entries d).find? (fun p => p.1 == name)).map (fun p => p.2)

/-- Lookup in a single class's own attribute dict (no MRO walk). -/
def class_dict_get (c : PyObject) (name : String) : Option PyObject :=
  match c.kind with
  | .Class _ d _ => dict_get d name
  | _ => none

/-- Attribute lookup on an object (`AttributeProtocol::get_attr`, consumed by
`objtype.rs` but defined outside it). Modelled from the spec: for a type this
is the MRO-flattened attribute lookup — the type's own attribute map first,
then each ancestor's in MRO order; for an instance it is the instance's own
attribute map only (ancestor attributes are never copied down). -/
def get_attr (obj : PyObject) (name : String) : Option PyObject :=
  match obj.kind with
  | .Class _ d mro =>
    match dict_get d name with
    | some v => some v
    | none => mro.findSome? (fun c => class_dict_get c name)
  | .Instance d => dict_get d name
  | _ => none

/-- Capability query (`AttributeProtocol::has_attr`). Modelled from the spec:
does the object expose an attribute under this name. -/
def has_attr (obj : PyObject) (name : String) : Bool := (get_attr obj name).isSome

/-- Payload of a string object (`objstr::get_value`); panics on a non-string,
modelled as `none`. -/
def str_value (o : PyObject) : Option String :=
  match o.kind with
  | .Str s => some s
  | _ => none

/-- Elements of a sequence object (`vm.extract_elements`). Modelled from the
spec: tuple construction is a pre-existing primitive; a non-sequence argument
is a wrong-kind-of-argument error. -/
def extract_elements (o : PyObject) : PyRes (List PyObject) :=
  match o.kind with
  | .Tup elements => .ok elements
  | _ => .err (.typeError "expected a sequence")

/-- Full MRO of a class, itself included (`_mro`, objtype.rs:50-59): `none`
for a non-class. -/
def _mro (cls : PyObject) : Option (List PyObject) :=
  match cls.kind with
  | .Class _ _ mro => some (cls :: mro)
  | _ => none

/-- Full MRO of an object's own type (`base_classes`, objtype.rs:61-63):
`obj.typ()` then `_mro(...).unwrap()` — both unwraps abort on failure. -/
def base_classes (obj : PyObject) : PyRes (List PyObject) :=
  match obj.typ with
  | none => .abort
  | some t =>
    match _mro t with
    | none => .abort
    | some mro => .ok mro

/-- Identity-membership of `cls` in the full MRO of `obj`'s type
(`isinstance`, objtype.rs:65-68); the `unwrap` of a `None` MRO aborts. -/
def isinstance (obj cls : PyObject) : PyRes Bool :=
  match obj.typ with
  | none => .abort
  | some t =>
    match _mro t with
    | none => .abort
    | some mro => .ok (mro.any (fun c => c.is cls))

/-- Identity-membership of `cls` in the full MRO of the type `typ`
(`issubclass`, objtype.rs:70-73); the `unwrap` of a `None` MRO aborts. -/
def issubclass (typ cls : PyObject) : PyRes Bool :=
  match _mro typ with
  | none => .abort
  | some mro => .ok (mro.any (fun c => c.is cls))

/-- The candidate test of `take_next_base` (objtype.rs:238-241): the head must
not appear, by identity, in the tail (`x[1..]`) of any worklist sequence. -/
def headNotInTails (fb : List (List PyObject)) (head : PyObject) : Bool :=
  !(fb.any (fun x => (x.drop 1).any (fun y => y.get_id == head.get_id)))

/-- One step of the candidate scan (the `for base in &bases` loop body,
objtype.rs:236-245): a non-empty sequence proposes its head if it qualifies. -/
def candidate (fb : List (List PyObject)) : List PyObject → Option PyObject
  | [] => none
  | h :: _ => if headNotInTails fb h then some h else none

/-- Head removal pass (objtype.rs:248-252): drop the head of every sequence
whose head is, by identity, the selected head. -/
def removeHead (head : PyObject) : List PyObject → List PyObject
  | [] => []
  | h :: t => if h.get_id == head.get_id then t else h :: t

/-- One merge step (`take_next_base`, objtype.rs:229-256): drop empty
sequences, select the first head that appears in no tail, remove it from every
head position, and return it with the updated worklist; `none` if no head
qualifies. -/
def take_next_base (bases : List (List PyObject)) :
    Option (PyObject × List (List PyObject)) :=
  match (bases.filter (fun x => !x.isEmpty)).findSome?
      (candidate (bases.filter (fun x => !x.isEmpty))) with
  | some head =>
    some (head, (bases.filter (fun x => !x.isEmpty)).map (removeHead head))
  | none => none

/-- Total number of entries across the worklist; the merge's termination
measure (each successful `take_next_base` removes at least one entry). -/
def totalLen : List (List PyObject) → Nat
  | [] => 0
  | l :: ls => l.length + totalLen ls

/-- The merge loop of `linearise_mro` (objtype.rs:261-272), with the iteration
count made explicit: each pass either stops (all sequences empty), fails (no
candidate), or appends the selected head and continues. `totalLen` passes
always suffice (`take_next_base_totalLen_lt`), so the fuel-exhausted branch is
unreachable from `linearise_mro`. -/
def linearise_loop : Nat → List (List PyObject) → Option (List PyObject)
  | 0, bases => if bases.all List.isEmpty then some [] else none
  | fuel + 1, bases =>
    if bases.all List.isEmpty then some []
    else
      match take_next_base bases with
      | some (head, newBases) =>
        match linearise_loop fuel newBases with
        | some rest => some (head :: rest)
        | none => none
      | none => none

/-- C3-style merge (`linearise_mro`, objtype.rs:258-274): repeatedly take the
next base until the worklist is drained, or fail. -/
def linearise_mro (bases : List (List PyObject)) : Option (List PyObject) :=
  linearise_loop (totalLen bases) bases

/-- The worklist built by `new` (objtype.rs:277): each direct base's full MRO,
via `_mro(x).unwrap()` — `none` models the panic on a non-class base. -/
def mros_of : List PyObject → Option (List (List PyObject))
  | [] => some []
  | b :: bs =>
    match _mro b with
    | some m =>
      match mros_of bs with
      | some ms => some (m :: ms)
      | none => none
    | none => none

/-- Type construction (`new`, objtype.rs:276-287): compute each base's full
MRO, linearise, and allocate the class. Both `.unwrap()` calls (a non-class
base; a failed linearisation) abort; otherwise the result is always `Ok`. -/
def new (typ : PyObject) (name : String) (bases : List PyObject)
    (dict : PyObject) (newId : Nat) : PyRes PyObject :=
  match mros_of bases with
  | none => .abort
  | some mros =>
    match linearise_mro mros with
    | none => .abort
    | some mro => .ok (PyObject.mk newId (some typ) (.Class name dict mro))

/-- The call `type_getattribute` hands back to the eval layer: which callable
is invoked with which argument vector, or which value is returned directly.
`invoke` is `vm.invoke(callee, args)`; `plain` is `Ok(cls_attr)`;
`getDescriptor` is `vm.call_get_descriptor(attr, cls)`. -/
inductive LookupOutcome : Type where
  | invoke (callee : PyObject) (args : List PyObject)
  | plain (attr : PyObject)
  | getDescriptor (attr : PyObject) (cls : PyObject)

/-- Metaclass data-descriptor step of `type_getattribute` (objtype.rs:146-159):
if the metatype's MRO holds the name and the attribute's own type has
`__set__`, and that type also has `__get__`, invoke the descriptor with
`(attr, cls, mcl)`. `none` means fall through to the next step; reading
`attr.typ()` on a type-less attribute aborts. -/
def tga_step1 (cls mcl : PyObject) (name : String) :
    Option (PyRes LookupOutcome) :=
  match get_attr mcl name with
  | some attr =>
    match attr.typ with
    | none => some .abort
    | some attr_class =>
      if has_attr attr_class "__set__" then
        match get_attr attr_class "__get__" with
        | some descriptor => some (.ok (.invoke descriptor [attr, cls, mcl]))
        | none => none
      else none
  | none => none

/-- Own-attribute descriptor step of `type_getattribute`
(objtype.rs:161-173): if the subject's own MRO holds the name and the
attribute's own type has `__get__`, invoke the descriptor with
`(attr, none-object, cls)`. -/
def tga_step2 (cls : PyObject) (name : String) (noneObj : PyObject) :
    Option (PyRes LookupOutcome) :=
  match get_attr cls name with
  | some attr =>
    match attr.typ with
    | none => some .abort
    | some attr_class =>
      match get_attr attr_class "__get__" with
      | some descriptor => some (.ok (.invoke descriptor [attr, noneObj, cls]))
      | none => none
  | none => none

/-- Final steps of `type_getattribute` (objtype.rs:175-195): plain own
attribute; else metatype attribute through the generic descriptor helper;
else the `__getattr__` fallback invoked with `(mcl, name_str)`; else an
attribute error naming the metatype, the subject and the name. -/
def tga_step3 (cls mcl nameStr : PyObject) (name : String) :
    PyRes LookupOutcome :=
  match get_attr cls name with
  | some cls_attr => .ok (.plain cls_attr)
  | none =>
    match get_attr mcl name with
    | some attr => .ok (.getDescriptor attr cls)
    | none =>
      match get_attr cls "__getattr__" with
      | some getter => .ok (.invoke getter [mcl, nameStr])
      | none => .err (.attributeNotFound mcl cls name)

/-- Attribute resolution on a type (`type_getattribute`, objtype.rs:133-196),
after argument extraction: read the name string (`objstr::get_value`), read
the subject's metatype (`cls.typ()`, aborting if unset), then run the three
resolution stages in order, each short-circuiting on success. -/
def type_getattribute (cls nameStr noneObj : PyObject) : PyRes LookupOutcome :=
  match str_value nameStr with
  | none => .abort
  | some name =>
    match cls.typ with
    | none => .abort
    | some mcl =>
      match tga_step1 cls mcl name with
      | some r => r
      | none =>
        match tga_step2 cls name noneObj with
        | some r => r
        | none => tga_step3 cls mcl nameStr name

/-- Instantiation protocol (`type_call`, objtype.rs:117-131). The eval-layer
capabilities are passed as their outcomes: `cgd` is
`vm.call_get_descriptor(new, cls)`, `invNew` is `vm.invoke(new_wrapped,
args)`, `initM` is `vm.get_method(obj, "__init__")` (an `Err` skips the init
step, hence `Option`), `invInit` is `vm.invoke(init, args)`. The `__new__`
lookup on the class itself is `cls.get_attr("__new__").unwrap()`. A non-null
`__init__` result is the fixed type error; otherwise the object produced by
`__new__` is returned. -/
def type_call (cls : PyObject) (cgd invNew : PyRes PyObject)
    (initM : Option PyObject) (invInit : PyRes PyObject)
    (noneObj : PyObject) : PyRes PyObject :=
  match get_attr cls "__new__" with
  | none => .abort
  | some _new =>
    match cgd with
    | .abort => .abort
    | .err e => .err e
    | .ok _new_wrapped =>
      match invNew with
      | .abort => .abort
      | .err e => .err e
      | .ok obj =>
        match initM with
        | some _init =>
          match invInit with
          | .abort => .abort
          | .err e => .err e
          | .ok res =>
            if res.is noneObj then .ok obj
            else .err (.typeError "__init__ must return None")
        | none => .ok obj

/-- Argument type check of the `arg_check!` macro. Modelled from the spec: an
operation expecting a type-constrained argument checks it with `isinstance`
and surfaces a type-mismatch error naming the expected and actual kinds. -/
def check_arg (arg expected : PyObject) : PyRes Unit :=
  match isinstance arg expected with
  | .abort => .abort
  | .err e => .err e
  | .ok true => .ok ()
  | .ok false => .err (.typeMismatch expected arg)

/-- Constructor dispatch (`type_new`, objtype.rs:88-115): the two-argument
form checks the metatype argument and returns the second argument's own type
(`Ok(obj.typ())`, aborting if unset); the four-argument form checks metatype,
name string and dict, extracts the base elements, appends the universal root
(`vm.context().object()`, the `objectType` parameter), reads the name string
and delegates to `new`; any other argument count is a type error. -/
def type_new (typeType strType dictType objectType : PyObject)
    (args : List PyObject) (newId : Nat) : PyRes PyObject :=
  match args with
  | [typ0, obj] =>
    match check_arg typ0 typeType with
    | .abort => .abort
    | .err e => .err e
    | .ok _ =>
      match obj.typ with
      | none => .abort
      | some t => .ok t
  | [typ0, nameObj, basesObj, dictObj] =>
    match check_arg typ0 typeType with
    | .abort => .abort
    | .err e => .err e
    | .ok _ =>
      match check_arg nameObj strType with
      | .abort => .abort
      | .err e => .err e
      | .ok _ =>
        match check_arg dictObj dictType with
        | .abort => .abort
        | .err e => .err e
        | .ok _ =>
          match extract_elements basesObj with
          | .abort => .abort
          | .err e => .err e
          | .ok elements =>
            match str_value nameObj with
            | none => .abort
            | some nm => new typ0 nm (elements ++ [objectType]) dictObj newId
  | _ => .err (.typeError ": type_new")

/-- All identities occurring in a worklist, in sequence order. -/
def allIds : List (List PyObject) → List Nat
  | [] => []
  | l :: ls => l.map PyObject.get_id ++ allIds ls

/-- Does the object's kind carry a class payload (`PyObjectKind::Class`). -/
def isClassObj (o : PyObject) : Bool :=
  match o.kind with
  | .Class _ _ _ => true
  | _ => false

/-- Concrete runtime graphs used to evaluate the embedded operations: the
none singleton, an empty attribute dict, the bootstrap `object`/`type` pair,
and small class hierarchies. Identities are pairwise distinct. -/
def noneO : PyObject := .mk 0 none .Other

/-- An empty attribute dict object. -/
def emptyDict : PyObject := .mk 6 none (.Dict [])

/-- The universal root type. -/
def objT : PyObject := .mk 1 none (.Class "object" emptyDict [])

/-- The metatype `type`. -/
def typeT : PyObject := .mk 4 none (.Class "type" emptyDict [objT])

/-- `class A(object)`. -/
def aT : PyObject := .mk 2 (some typeT) (.Class "A" emptyDict [objT])

/-- `class B(A)` — a subclass of `A`. -/
def bT : PyObject := .mk 3 (some typeT) (.Class "B" emptyDict [aT, objT])

/-- `class A2(object)`. -/
def a2 : PyObject := .mk 21 (some typeT) (.Class "A2" emptyDict [objT])

/-- `class B2(object)`. -/
def b2 : PyObject := .mk 22 (some typeT) (.Class "B2" emptyDict [objT])

/-- `class X(A2, B2)` — claims `A2` precedes `B2`. -/
def xT : PyObject := .mk 23 (some typeT) (.Class "X" emptyDict [a2, b2, objT])

/-- `class Y(B2, A2)` — claims `B2` precedes `A2`. -/
def yT : PyObject := .mk 24 (some typeT) (.Class "Y" emptyDict [b2, a2, objT])

/-- A set-capability function object. -/
def setFn : PyObject := .mk 25 none .Other

/-- A get-capability function object. -/
def getFn : PyObject := .mk 26 none .Other

/-- Dict of a data-descriptor class: both `__set__` and `__get__`. -/
def descDict : PyObject := .mk 29 none (.Dict [("__set__", setFn), ("__get__", getFn)])

/-- A data-descriptor class (both capabilities). -/
def descClass : PyObject := .mk 30 (some typeT) (.Class "Desc" descDict [objT])

/-- A data-descriptor attribute instance (its type is `descClass`). -/
def attrD : PyObject := .mk 31 (some descClass) .Other

/-- Dict of a metaclass holding the data descriptor under `"x"`. -/
def metaDict : PyObject := .mk 27 none (.Dict [("x", attrD)])

/-- A metaclass carrying the data descriptor `"x"`. -/
def metaT : PyObject := .mk 32 (some typeT) (.Class "Meta" metaDict [typeT, objT])

/-- A plain (non-descriptor) attribute value typed by `object`. -/
def plainV : PyObject := .mk 28 (some objT) .Other

/-- Dict of the subject class: a plain `"x"` of its own. -/
def subjDict : PyObject := .mk 37 none (.Dict [("x", plainV)])

/-- A subject class whose metaclass is `metaT` and which also defines `"x"`. -/
def subj : PyObject := .mk 33 (some metaT) (.Class "C" subjDict [objT])

/-- The string type. -/
def strT : PyObject := .mk 55 (some typeT) (.Class "str" emptyDict [objT])

/-- The dict type. -/
def dictT : PyObject := .mk 56 (some typeT) (.Class "dict" emptyDict [objT])

/-- The string object `"x"`. -/
def nameX : PyObject := .mk 34 (some strT) (.Str "x")

/-- A metaclass with no attributes at all. -/
def meta2 : PyObject := .mk 35 (some typeT) (.Class "Meta2" emptyDict [typeT, objT])

/-- A subject class with no attributes and no `__getattr__`. -/
def subj2 : PyObject := .mk 36 (some meta2) (.Class "D" emptyDict [objT])

/-- The string object `"y"`. -/
def nameY : PyObject := .mk 38 (some strT) (.Str "y")

/-- Dict of a set-only descriptor class: `__set__` but no `__get__`. -/
def descDict2 : PyObject := .mk 39 none (.Dict [("__set__", setFn)])

/-- A set-only descriptor class. -/
def descClass2 : PyObject := .mk 42 (some typeT) (.Class "Desc2" descDict2 [objT])

/-- A set-only descriptor attribute instance. -/
def attrS : PyObject := .mk 43 (some descClass2) .Other

/-- Dict of a metaclass holding the set-only descriptor under `"z"`. -/
def meta3Dict : PyObject := .mk 44 none (.Dict [("z", attrS)])

/-- A metaclass carrying the set-only descriptor `"z"`. -/
def meta3 : PyObject := .mk 45 (some typeT) (.Class "Meta3" meta3Dict [typeT, objT])

/-- A subject class (metaclass `meta3`) with no `"z"` of its own. -/
def subjA : PyObject := .mk 46 (some meta3) (.Class "E" emptyDict [objT])

/-- A plain attribute value under `"z"`. -/
def plainZ : PyObject := .mk 51 (some objT) .Other

/-- Dict of a subject class with its own plain `"z"`. -/
def subjBDict : PyObject := .mk 52 none (.Dict [("z", plainZ)])

/-- A subject class (metaclass `meta3`) defining a plain `"z"`. -/
def subjB : PyObject := .mk 53 (some meta3) (.Class "F" subjBDict [objT])

/-- The string object `"z"`. -/
def nameZ : PyObject := .mk 54 (some strT) (.Str "z")

/-- A `__new__` function object. -/
def newFn : PyObject := .mk 48 none .Other

/-- Dict of a class defining `__new__`. -/
def clsCDict : PyObject := .mk 49 none (.Dict [("__new__", newFn)])

/-- A class defining `__new__`, used to exercise `type_call`. -/
def clsC : PyObject := .mk 50 (some typeT) (.Class "T" clsCDict [objT])

/-- The object produced by invoking `__new__`. -/
def objNew : PyObject := .mk 47 (some clsC) .Other

/-- A resolved `__init__` method object. -/
def initFn : PyObject := .mk 57 none .Other

/-- A non-null value returned by a misbehaving `__init__`. -/
def retVal : PyObject := .mk 58 none .Other

/-- An instance of `A`. -/
def instA : PyObject := .mk 59 (some aT) (.Instance emptyDict)

/-- An object whose `typ` is the non-class `instA`. -/
def oBad : PyObject := .mk 60 (some instA) .Other

/-- The string object `"P"`. -/
def nameP : PyObject := .mk 61 (some strT) (.Str "P")

/-- A bases tuple holding `[A]`. -/
def basesTup : PyObject := .mk 62 (some typeT) (.Tup [aT])

/-- A dict object typed by the dict type. -/
def dictObj : PyObject := .mk 63 (some dictT) (.Dict [])

theorem totalLen_filter_le (p : List PyObject → Bool)
    (bases : List (List PyObject)) :
    totalLen (bases.filter p) ≤ totalLen bases := by
  induction bases with
  | nil => simp [totalLen]
  | cons l ls ih =>
    by_cases h : p l
    · simpa [List.filter_cons, h, totalLen] using ih
    · simp only [List.filter_cons, h, Bool.false_eq_true, if_false, totalLen]
      omega

theorem removeHead_length_le (head : PyObject) (l : List PyObject) :
    (removeHead head l).length ≤ l.length := by
  cases l with
  | nil => simp [removeHead]
  | cons h t =>
    simp only [removeHead]
    split <;> simp

theorem totalLen_map_le (f : List PyObject → List PyObject)
    (hle : ∀ l, (f l).length ≤ l.length) (fb : List (List PyObject)) :
    totalLen (fb.map f) ≤ totalLen fb := by
  induction fb with
  | nil => simp [totalLen]
  | cons x xs ih =>
    simp only [List.map_cons, totalLen]
    have := hle x
    omega

theorem totalLen_map_lt (f : List PyObject → List PyObject)
    (hle : ∀ l, (f l).length ≤ l.length) (fb : List (List PyObject))
    (b0 : List PyObject) (hb0 : b0 ∈ fb) (hlt : (f b0).length < b0.length) :
    totalLen (fb.map f) < totalLen fb := by
  induction fb with
  | nil => cases hb0
  | cons x xs ih =>
    simp only [List.map_cons, totalLen]
    rcases List.mem_cons.mp hb0 with rfl | hmem
    · have := totalLen_map_le f hle xs
      omega
    · have := hle x
      have := ih hmem
      omega

theorem take_next_base_eq_some {bases : List (List PyObject)}
    {head : PyObject} {nb : List (List PyObject)}
    (h : take_next_base bases = some (head, nb)) :
    ∃ t, (head :: t) ∈ bases.filter (fun x => !x.isEmpty)
      ∧ headNotInTails (bases.filter (fun x => !x.isEmpty)) head = true
      ∧ nb = (bases.filter (fun x => !x.isEmpty)).map (removeHead head) := by
  unfold take_next_base at h
  cases hf : (bases.filter (fun x => !x.isEmpty)).findSome?
      (candidate (bases.filter (fun x => !x.isEmpty))) with
  | none => rw [hf] at h; cases h
  | some hd =>
    rw [hf] at h
    obtain ⟨rfl, rfl⟩ : hd = head
        ∧ (bases.filter (fun x => !x.isEmpty)).map (removeHead hd) = nb := by
      cases h; exact ⟨rfl, rfl⟩
    obtain ⟨b, hb, hcand⟩ := List.exists_of_findSome?_eq_some hf
    cases b with
    | nil => simp [candidate] at hcand
    | cons h0 t0 =>
      simp only [candidate] at hcand
      split at hcand
      · cases hcand
        next hnt => exact ⟨t0, hb, hnt, rfl⟩
      · cases hcand

theorem take_next_base_totalLen_lt {bases : List (List PyObject)}
    {head : PyObject} {nb : List (List PyObject)}
    (h : take_next_base bases = some (head, nb)) :
    totalLen nb < totalLen bases := by
  obtain ⟨t, hmem, _hnt, rfl⟩ := take_next_base_eq_some h
  have h1 : totalLen ((bases.filter (fun x => !x.isEmpty)).map
      (removeHead head)) < totalLen (bases.filter (fun x => !x.isEmpty)) := by
    refine totalLen_map_lt (removeHead head) (removeHead_length_le head) _
      (head :: t) hmem ?_
    simp [removeHead]
  exact lt_of_lt_of_le h1 (totalLen_filter_le _ _)

theorem all_isEmpty_of_totalLen_eq_zero {bases : List (List PyObject)}
    (h : totalLen bases = 0) : bases.all List.isEmpty = true := by
  induction bases with
  | nil => rfl
  | cons l ls ih =>
    simp only [totalLen] at h
    have hl : l = [] := List.length_eq_zero.mp (by omega)
    subst hl
    simp [List.all_cons, ih (by omega)]

theorem totalLen_ne_zero_of_not_all {bases : List (List PyObject)}
    (h : bases.all List.isEmpty = false) : totalLen bases ≠ 0 := by
  intro h0
  rw [all_isEmpty_of_totalLen_eq_zero h0] at h
  cases h

theorem linearise_loop_congr : ∀ (f1 : Nat) {f2 : Nat}
    (bases : List (List PyObject)), totalLen bases ≤ f1 →
    totalLen bases ≤ f2 → linearise_loop f1 bases = linearise_loop f2 bases := by
  intro f1
  induction f1 with
  | zero =>
    intro f2 bases h1 _h2
    have hall := all_isEmpty_of_totalLen_eq_zero (Nat.le_zero.mp h1)
    cases f2 <;> simp [linearise_loop, hall]
  | succ f1' ih =>
    intro f2 bases h1 h2
    cases f2 with
    | zero =>
      have hall := all_isEmpty_of_totalLen_eq_zero (Nat.le_zero.mp h2)
      simp [linearise_loop, hall]
    | succ f2' =>
      by_cases hall : bases.all List.isEmpty = true
      · simp [linearise_loop, hall]
      · simp only [linearise_loop, hall, Bool.false_eq_true, if_false]
        cases htnb : take_next_base bases with
        | none => rfl
        | some p =>
          obtain ⟨head, nb⟩ := p
          have hlt := take_next_base_totalLen_lt htnb
          dsimp only
          rw [@ih f2' nb (by omega) (by omega)]

theorem linearise_mro_of_all_empty {bases : List (List PyObject)}
    (h : bases.all List.isEmpty = true) : linearise_mro bases = some [] := by
  unfold linearise_mro
  cases htot : totalLen bases <;> simp [linearise_loop, h]

theorem linearise_mro_step {bases : List (List PyObject)} {head : PyObject}
    {nb : List (List PyObject)} (h0 : bases.all List.isEmpty = false)
    (h : take_next_base bases = some (head, nb)) :
    linearise_mro bases
      = match linearise_mro nb with
        | some rest => some (head :: rest)
        | none => none := by
  unfold linearise_mro
  have hne : totalLen bases ≠ 0 := totalLen_ne_zero_of_not_all h0
  obtain ⟨k, hk⟩ : ∃ k, totalLen bases = k + 1 :=
    ⟨totalLen bases - 1, by omega⟩
  have hlt := take_next_base_totalLen_lt h
  rw [hk]
  simp only [linearise_loop, h0, Bool.false_eq_true, if_false, h]
  rw [linearise_loop_congr k nb (by omega) (le_refl (totalLen nb))]

theorem exists_min_on {α : Type} (g : α → Nat) :
    ∀ (l : List α), l ≠ [] → ∃ a ∈ l, ∀ b ∈ l, g a ≤ g b := by
  intro l
  induction l with
  | nil => intro h; cases h rfl
  | cons x xs ih =>
    intro _
    by_cases hxs : xs = []
    · subst hxs
      refine ⟨x, by simp, ?_⟩
      intro b hb
      rcases List.mem_cons.mp hb with rfl | hb'
      · exact le_refl _
      · cases hb'
    · obtain ⟨m, hm, hmin⟩ := ih hxs
      by_cases hcmp : g x ≤ g m
      · refine ⟨x, by simp, ?_⟩
        intro b hb
        rcases List.mem_cons.mp hb with rfl | hb'
        · exact le_refl _
        · exact le_trans hcmp (hmin b hb')
      · refine ⟨m, by simp [hm], ?_⟩
        intro b hb
        rcases List.mem_cons.mp hb with rfl | hb'
        · omega
        · exact hmin b hb'

theorem headNotInTails_spec {fb : List (List PyObject)} {head : PyObject}
    (h : headNotInTails fb head = true) :
    ∀ l ∈ fb, ∀ y ∈ l.drop 1, y.get_id ≠ head.get_id := by
  intro l hl y hy heq
  unfold headNotInTails at h
  simp only [Bool.not_eq_true', List.any_eq_false, Bool.not_eq_true] at h
  exact absurd heq (by simpa using h l hl y hy)

theorem take_next_base_some_of_linext {bases : List (List PyObject)}
    (f : Nat → Nat)
    (hf : ∀ l ∈ bases, List.Pairwise (fun a b => f a.get_id < f b.get_id) l)
    (hne : bases.all List.isEmpty = false) :
    ∃ head nb, take_next_base bases = some (head, nb) := by
  obtain ⟨l0, hl0, hl0e⟩ := List.all_eq_false.mp hne
  have hl0ne : l0 ≠ [] := by
    rcases l0 with _ | ⟨a, t⟩
    · simp at hl0e
    · simp
  have hl0f : l0 ∈ bases.filter (fun x => !x.isEmpty) :=
    List.mem_filter.mpr ⟨hl0, by rcases l0 with _ | ⟨a, t⟩ <;> simp_all⟩
  obtain ⟨a0, t0, rfl⟩ := List.exists_cons_of_ne_nil hl0ne
  have ha0 : a0 ∈ (bases.filter (fun x => !x.isEmpty)).filterMap
      List.head? :=
    List.mem_filterMap.mpr ⟨a0 :: t0, hl0f, rfl⟩
  obtain ⟨m, hm, hmin⟩ := exists_min_on (fun h => f h.get_id) _
    (List.ne_nil_of_mem ha0)
  have hq : headNotInTails (bases.filter (fun x => !x.isEmpty)) m = true := by
    unfold headNotInTails
    simp only [Bool.not_eq_true', List.any_eq_false]
    intro x hx hin
    rw [List.any_eq_true] at hin
    obtain ⟨y, hy, hbeq⟩ := hin
    have hyid : y.get_id = m.get_id := by simpa using hbeq
    have hxne : x ≠ [] := by
      have hx2 := (List.mem_filter.mp hx).2
      rcases x with _ | ⟨a, t⟩ <;> simp_all
    obtain ⟨a, t, rfl⟩ := List.exists_cons_of_ne_nil hxne
    have hy' : y ∈ t := by simpa using hy
    have hpw := hf (a :: t) (List.mem_of_mem_filter hx)
    have hrel : f a.get_id < f y.get_id := (List.pairwise_cons.mp hpw).1 y hy'
    have hahs : a ∈ (bases.filter (fun x => !x.isEmpty)).filterMap
        List.head? :=
      List.mem_filterMap.mpr ⟨a :: t, hx, rfl⟩
    have hma : f m.get_id ≤ f a.get_id := hmin a hahs
    rw [hyid] at hrel
    omega
  obtain ⟨s, hsfb, hshead⟩ := List.mem_filterMap.mp hm
  have hcand : candidate (bases.filter (fun x => !x.isEmpty)) s = some m := by
    rcases s with _ | ⟨a, t⟩
    · cases hshead
    · have : a = m := by simpa using hshead
      subst this
      simp [candidate, hq]
  have hfind : (bases.filter (fun x => !x.isEmpty)).findSome?
      (candidate (bases.filter (fun x => !x.isEmpty))) ≠ none := by
    intro hnone
    have := List.findSome?_eq_none_iff.mp hnone s hsfb
    rw [hcand] at this
    cases this
  obtain ⟨hd, hfd⟩ := Option.ne_none_iff_exists'.mp hfind
  refine ⟨hd, (bases.filter (fun x => !x.isEmpty)).map (removeHead hd), ?_⟩
  unfold take_next_base
  rw [hfd]

theorem mem_allIds {n : Nat} : ∀ {bs : List (List PyObject)},
    n ∈ allIds bs ↔ ∃ l ∈ bs, n ∈ l.map PyObject.get_id := by
  intro bs
  induction bs with
  | nil => simp [allIds]
  | cons l ls ih => simp [allIds, ih]

theorem allIds_filter_nonempty (bs : List (List PyObject)) (n : Nat) :
    n ∈ allIds (bs.filter (fun x => !x.isEmpty)) ↔ n ∈ allIds bs := by
  rw [mem_allIds, mem_allIds]
  constructor
  · rintro ⟨l, hl, hn⟩
    exact ⟨l, List.mem_of_mem_filter hl, hn⟩
  · rintro ⟨l, hl, hn⟩
    refine ⟨l, List.mem_filter.mpr ⟨hl, ?_⟩, hn⟩
    rcases l with _ | ⟨a, t⟩
    · simp at hn
    · simp

theorem removeHead_ids (head : PyObject) (l : List PyObject) (hne : l ≠ [])
    (htail : ∀ y ∈ l.drop 1, y.get_id ≠ head.get_id) (n : Nat) :
    n ∈ (removeHead head l).map PyObject.get_id
      ↔ n ∈ l.map PyObject.get_id ∧ n ≠ head.get_id := by
  rcases l with _ | ⟨h0, t⟩
  · cases hne rfl
  · simp only [List.drop_succ_cons, List.drop_zero] at htail
    simp only [removeHead]
    by_cases hid : h0.get_id = head.get_id
    · rw [if_pos (by simpa using hid)]
      simp only [List.map_cons, List.mem_cons]
      constructor
      · intro hn
        obtain ⟨y, hy, rfl⟩ := List.mem_map.mp hn
        exact ⟨Or.inr hn, htail y hy⟩
      · rintro ⟨h | hn, hne'⟩
        · exact absurd (h.trans hid) hne'
        · exact hn
    · rw [if_neg (by simpa using hid)]
      simp only [List.map_cons, List.mem_cons]
      constructor
      · intro hn
        refine ⟨hn, ?_⟩
        rcases hn with rfl | hn
        · exact hid
        · obtain ⟨y, hy, rfl⟩ := List.mem_map.mp hn
          exact htail y hy
      · exact fun h => h.1

theorem nb_ids (head : PyObject) (fb : List (List PyObject))
    (hall : ∀ l ∈ fb, l ≠ [])
    (htails : ∀ l ∈ fb, ∀ y ∈ l.drop 1, y.get_id ≠ head.get_id) (n : Nat) :
    n ∈ allIds (fb.map (removeHead head))
      ↔ n ∈ allIds fb ∧ n ≠ head.get_id := by
  rw [mem_allIds, mem_allIds]
  constructor
  · rintro ⟨l', hl', hn⟩
    obtain ⟨l, hl, rfl⟩ := List.mem_map.mp hl'
    have h' := (removeHead_ids head l (hall l hl) (htails l hl) n).mp hn
    exact ⟨⟨l, hl, h'.1⟩, h'.2⟩
  · rintro ⟨⟨l, hl, hn⟩, hne⟩
    refine ⟨removeHead head l, List.mem_map_of_mem _ hl, ?_⟩
    exact (removeHead_ids head l (hall l hl) (htails l hl) n).mpr ⟨hn, hne⟩

theorem removeHead_pairwise {R : PyObject → PyObject → Prop}
    (head : PyObject) (l : List PyObject) (h : List.Pairwise R l) :
    List.Pairwise R (removeHead head l) := by
  rcases l with _ | ⟨h0, t⟩
  · exact h
  · simp only [removeHead]
    split
    · exact h.of_cons
    · exact h

theorem allIds_of_all_empty {bs : List (List PyObject)}
    (h : bs.all List.isEmpty = true) : allIds bs = [] := by
  induction bs with
  | nil => rfl
  | cons l ls ih =>
    simp only [List.all_cons, Bool.and_eq_true] at h
    have hl : l = [] := by simpa [List.isEmpty_iff] using h.1
    subst hl
    simp [allIds, ih h.2]

theorem linearise_aux : ∀ (N : Nat) (bases : List (List PyObject))
    (f : Nat → Nat), totalLen bases ≤ N →
    (∀ l ∈ bases, List.Pairwise (fun a b => f a.get_id < f b.get_id) l) →
    ∃ r, linearise_mro bases = some r ∧ (r.map PyObject.get_id).Nodup ∧
      ∀ n, n ∈ r.map PyObject.get_id ↔ n ∈ allIds bases := by
  intro N
  induction N with
  | zero =>
    intro bases f h0 _hf
    have hall := all_isEmpty_of_totalLen_eq_zero (Nat.le_zero.mp h0)
    refine ⟨[], linearise_mro_of_all_empty hall, by simp, ?_⟩
    intro n
    simp [allIds_of_all_empty hall]
  | succ N ih =>
    intro bases f h0 hf
    by_cases hall : bases.all List.isEmpty = true
    · refine ⟨[], linearise_mro_of_all_empty hall, by simp, ?_⟩
      intro n
      simp [allIds_of_all_empty hall]
    · have hne : bases.all List.isEmpty = false :=
        Bool.not_eq_true _ ▸ Bool.eq_false_iff.mpr hall
      obtain ⟨head, nb, htnb⟩ := take_next_base_some_of_linext f hf hne
      obtain ⟨t, hmem, hnt, hnbeq⟩ := take_next_base_eq_some htnb
      have hlt := take_next_base_totalLen_lt htnb
      have hallne : ∀ l ∈ bases.filter (fun x => !x.isEmpty), l ≠ [] := by
        intro l hl
        have h2 := (List.mem_filter.mp hl).2
        rcases l with _ | ⟨a, t'⟩ <;> simp_all
      have htails := headNotInTails_spec hnt
      have hf' : ∀ l ∈ nb,
          List.Pairwise (fun a b => f a.get_id < f b.get_id) l := by
        subst hnbeq
        intro l hl
        obtain ⟨l0, hl0, rfl⟩ := List.mem_map.mp hl
        exact removeHead_pairwise head l0
          (hf l0 (List.mem_of_mem_filter hl0))
      obtain ⟨r, hr, hnd, hmemiff⟩ := ih nb f (by omega) hf'
      have hnbids : ∀ n, n ∈ allIds nb ↔ n ∈ allIds bases ∧
          n ≠ head.get_id := by
        intro n
        rw [hnbeq, nb_ids head _ hallne htails n, allIds_filter_nonempty]
      have hheadin : head.get_id ∈ allIds bases := by
        rw [mem_allIds]
        exact ⟨head :: t, List.mem_of_mem_filter hmem, by simp⟩
      refine ⟨head :: r, ?_, ?_, ?_⟩
      · rw [linearise_mro_step hne htnb, hr]
      · simp only [List.map_cons, List.nodup_cons]
        refine ⟨?_, hnd⟩
        intro hin
        have := (hnbids head.get_id).mp ((hmemiff head.get_id).mp hin)
        exact this.2 rfl
      · intro n
        simp only [List.map_cons, List.mem_cons]
        rw [hmemiff n, hnbids n]
        constructor
        · rintro (rfl | ⟨hin, _⟩)
          · exact hheadin
          · exact hin
        · intro hin
          by_cases hn : n = head.get_id
          · exact Or.inl hn
          · exact Or.inr ⟨hin, hn⟩

/-- C3: for every worklist of base-MRO sequences with no cyclic or
conflicting precedence constraints — formalised as the existence of a linear
extension `f` of the precedence order, i.e. a rank function under which every
worklist sequence is strictly increasing (exactly the worklists whose union
of pairwise before/after constraints is acyclic) — `linearise_mro` terminates
with a result (the embedding is a total function, so termination is the
existence of the `some` value) in which each ancestor appears exactly once:
the result's identities are duplicate-free, and an identity occurs in the
result exactly when it occurs in the worklist. -/
theorem linearise_mro_terminates_nodup (bases : List (List PyObject))
    (f : Nat → Nat) (n : Nat)
    (hf : ∀ l ∈ bases, List.Pairwise (fun a b => f a.get_id < f b.get_id) l) :
    ∃ r, linearise_mro bases = some r ∧ (r.map PyObject.get_id).Nodup ∧
      (n ∈ r.map PyObject.get_id ↔ n ∈ allIds bases) := by
  obtain ⟨r, h1, h2, h3⟩ := linearise_aux (totalLen bases) bases f
    (le_refl _) hf
  exact ⟨r, h1, h2, h3 n⟩

/-- C3 at a concrete input: the diamond worklist `[[A2, object],
[B2, object]]` with the rank function sending the root's id to 100 and any
other id to itself. -/
theorem linearise_mro_terminates_nodup_witness :
    (∀ l ∈ [[a2, objT], [b2, objT]],
      List.Pairwise (fun a b : PyObject =>
        (if a.get_id = 1 then 100 else a.get_id)
          < (if b.get_id = 1 then 100 else b.get_id)) l)
    ∧ ∃ r, linearise_mro [[a2, objT], [b2, objT]] = some r ∧
        (r.map PyObject.get_id).Nodup ∧
        (21 ∈ r.map PyObject.get_id ↔ 21 ∈ allIds [[a2, objT], [b2, objT]]) :=
  ⟨by decide,
    linearise_mro_terminates_nodup [[a2, objT], [b2, objT]]
      (fun k => if k = 1 then 100 else k) 21 (by decide)⟩

/-- C1: with `A = class A(object)` (id 2), `B = class B(A)` (id 3), the
construction `new(type, "C", [A, B], dict)` succeeds — the linearizer's
worklist holds only the two base MROs `[A, object]` and `[B, A, object]`,
with no extra sequence for the direct-base list `[A, B]` — and its computed
MRO is `[B, A, object]`: the direct bases `A, B` do not occur in the result
in the order given at construction time (their id sequence `[2, 3]` is not a
subsequence of the result's id sequence `[3, 2, 1]`), refuting the claim's
order guarantee at this input. -/
theorem new_direct_base_order_violated :
    new typeT "C" [aT, bT] emptyDict 10
      = .ok (PyObject.mk 10 (some typeT) (.Class "C" emptyDict [bT, aT, objT]))
    ∧ mros_of [aT, bT] = some [[aT, objT], [bT, aT, objT]]
    ∧ ¬ List.Sublist ([aT, bT].map PyObject.get_id)
        ([bT, aT, objT].map PyObject.get_id) :=
  ⟨rfl, rfl, by decide⟩

/-- C2: with `X = class X(A2, B2)` and `Y = class Y(B2, A2)` — two bases
whose ancestor orders conflict — `new(type, "Z", [X, Y], dict)` reaches
`linearise_mro(...) = None` and the source's `.unwrap()` panics: the embedded
`new` aborts instead of returning a construction-error result. -/
theorem new_aborts_on_inconsistent_bases :
    new typeT "Z" [xT, yT] emptyDict 11 = .abort
    ∧ linearise_mro [[xT, a2, b2, objT], [yT, b2, a2, objT]] = none :=
  ⟨rfl, rfl⟩

/-- C4: when the subject's metatype MRO holds the name as a data descriptor
(its own type exposes both `__set__` and `__get__`) while the subject's own
MRO holds an attribute of the same name, `type_getattribute` invokes the
metatype descriptor's `__get__` with `(attribute, subject, metatype)` and
returns that invocation's result; the subject's own attribute is not
returned. -/
theorem type_getattribute_metaclass_data_descriptor
    (cls nameStr noneObj mcl attr ac descriptor ownAttr : PyObject)
    (name : String)
    (hn : str_value nameStr = some name)
    (hm : cls.typ = some mcl)
    (h1 : get_attr mcl name = some attr)
    (h2 : attr.typ = some ac)
    (h3 : has_attr ac "__set__" = true)
    (h4 : get_attr ac "__get__" = some descriptor)
    (_hown : get_attr cls name = some ownAttr) :
    type_getattribute cls nameStr noneObj
      = .ok (.invoke descriptor [attr, cls, mcl])
    ∧ type_getattribute cls nameStr noneObj ≠ .ok (.plain ownAttr) := by
  have key : type_getattribute cls nameStr noneObj
      = .ok (.invoke descriptor [attr, cls, mcl]) := by
    simp only [type_getattribute, tga_step1, hn, hm, h1, h2, h3, h4, if_true]
  exact ⟨key, by simp [key]⟩

/-- C4 at a concrete input: subject `C` (metaclass `Meta` holding the data
descriptor `"x"`, own dict also holding `"x"`). -/
theorem type_getattribute_metaclass_data_descriptor_witness :
    (str_value nameX = some "x" ∧ subj.typ = some metaT
      ∧ get_attr metaT "x" = some attrD ∧ attrD.typ = some descClass
      ∧ has_attr descClass "__set__" = true
      ∧ get_attr descClass "__get__" = some getFn
      ∧ get_attr subj "x" = some plainV)
    ∧ (type_getattribute subj nameX noneO
        = .ok (.invoke getFn [attrD, subj, metaT])
      ∧ type_getattribute subj nameX noneO ≠ .ok (.plain plainV)) :=
  ⟨⟨rfl, rfl, rfl, rfl, rfl, rfl, rfl⟩,
    type_getattribute_metaclass_data_descriptor subj nameX noneO metaT attrD
      descClass getFn plainV "x" rfl rfl rfl rfl rfl rfl rfl⟩

/-- C5: in `type_call`, once `__new__` resolves and produces `obj`, a
resolved `__init__` whose invocation returns a value not identical to the
none singleton yields the fixed type error "__init__ must return None"; an
`__init__` returning the none singleton — or no resolved `__init__` at all —
makes the call return exactly `obj`. -/
theorem type_call_init_return_contract
    (cls nw obj init res noneObj n0 : PyObject)
    (hnew : get_attr cls "__new__" = some n0) :
    type_call cls (.ok nw) (.ok obj) (some init) (.ok res) noneObj
      = (if res.is noneObj then .ok obj
         else .err (.typeError "__init__ must return None"))
    ∧ type_call cls (.ok nw) (.ok obj) none (.ok res) noneObj = .ok obj := by
  constructor <;> simp only [type_call, hnew]

/-- C5 at a concrete input: class `T` defining `__new__`; `retVal` is not the
none singleton, so the first branch is the fixed error; with no `__init__`
the produced object comes back unchanged. -/
theorem type_call_init_return_contract_witness :
    get_attr clsC "__new__" = some newFn
    ∧ (type_call clsC (.ok newFn) (.ok objNew) (some initFn) (.ok retVal) noneO
        = (if retVal.is noneO then .ok objNew
           else .err (.typeError "__init__ must return None"))
      ∧ type_call clsC (.ok newFn) (.ok objNew) none (.ok retVal) noneO
        = .ok objNew) :=
  ⟨rfl, type_call_init_return_contract clsC newFn objNew initFn retVal noneO
    newFn rfl⟩

/-- C6: for an object whose type is a class, `isinstance(o, c)` is true
exactly when `c` is identity-equal to a member of `[T] ++ T.mro` with `T` the
object's type; for a class `S`, `issubclass(S, c)` is true exactly when `c`
is identity-equal to a member of `[S] ++ S.mro`; in particular
`issubclass(S, S)` is true. -/
theorem isinstance_issubclass_mro_membership
    (obj T cls S : PyObject) (nm nmS : String) (d dS : PyObject)
    (m mS : List PyObject)
    (hT : obj.typ = some T) (hK : T.kind = .Class nm d m)
    (hKS : S.kind = .Class nmS dS mS) :
    (isinstance obj cls = .ok true ↔ ∃ x ∈ T :: m, x.get_id = cls.get_id)
    ∧ (issubclass S cls = .ok true ↔ ∃ x ∈ S :: mS, x.get_id = cls.get_id)
    ∧ issubclass S S = .ok true := by
  have hmro : _mro T = some (T :: m) := by unfold _mro; rw [hK]
  have hmroS : _mro S = some (S :: mS) := by unfold _mro; rw [hKS]
  refine ⟨?_, ?_, ?_⟩
  · simp only [isinstance, hT, hmro, PyRes.ok.injEq, List.any_eq_true,
      PyObject.is, beq_iff_eq]
  · simp only [issubclass, hmroS, PyRes.ok.injEq, List.any_eq_true,
      PyObject.is, beq_iff_eq]
  · simp only [issubclass, hmroS, PyRes.ok.injEq, List.any_cons,
      PyObject.is, beq_self_eq_true, Bool.true_or]

/-- C6 at a concrete input: an instance of `A`, membership of `object` in
`[A, object]`, and `issubclass(B, B)`. -/
theorem isinstance_issubclass_mro_membership_witness :
    (instA.typ = some aT ∧ aT.kind = .Class "A" emptyDict [objT]
      ∧ bT.kind = .Class "B" emptyDict [aT, objT])
    ∧ ((isinstance instA objT = .ok true
          ↔ ∃ x ∈ aT :: [objT], x.get_id = objT.get_id)
      ∧ (issubclass bT objT = .ok true
          ↔ ∃ x ∈ bT :: [aT, objT], x.get_id = objT.get_id)
      ∧ issubclass bT bT = .ok true) :=
  ⟨⟨rfl, rfl, rfl⟩,
    isinstance_issubclass_mro_membership instA aT objT bT "A" "B" emptyDict
      emptyDict [objT] [aT, objT] rfl rfl rfl⟩

/-- C7: when neither the metatype's MRO nor the subject's own MRO holds the
name, `type_getattribute` invokes a `__getattr__` fallback defined on the
subject with `(metatype, name-string)` and returns its result; with no
fallback it fails with an attribute-not-found error carrying the metatype,
the subject and the attribute name. -/
theorem type_getattribute_fallback_and_error
    (cls nameStr noneObj mcl : PyObject) (name : String)
    (hn : str_value nameStr = some name)
    (hm : cls.typ = some mcl)
    (h1 : get_attr mcl name = none)
    (h2 : get_attr cls name = none) :
    type_getattribute cls nameStr noneObj
      = (match get_attr cls "__getattr__" with
         | some getter => .ok (.invoke getter [mcl, nameStr])
         | none => .err (.attributeNotFound mcl cls name)) := by
  simp only [type_getattribute, tga_step1, tga_step2, tga_step3, hn, hm, h1,
    h2]

/-- C7 at a concrete input: subject `D` (metaclass `Meta2`), name `"y"` held
nowhere and no `__getattr__`, so the attribute error names `Meta2`, `D` and
`"y"`. -/
theorem type_getattribute_fallback_and_error_witness :
    (str_value nameY = some "y" ∧ subj2.typ = some meta2
      ∧ get_attr meta2 "y" = none ∧ get_attr subj2 "y" = none)
    ∧ type_getattribute subj2 nameY noneO
      = (match get_attr subj2 "__getattr__" with
         | some getter => .ok (.invoke getter [meta2, nameY])
         | none => .err (.attributeNotFound meta2 subj2 "y")) :=
  ⟨⟨rfl, rfl, rfl, rfl⟩,
    type_getattribute_fallback_and_error subj2 nameY noneO meta2 "y" rfl rfl
      rfl rfl⟩

/-- C8: a metatype attribute whose type exposes `__set__` but not `__get__`
does not fail the metaclass-data-descriptor branch: the branch is skipped.
If the subject's own MRO also misses the name, the metatype attribute is
still returned through the generic descriptor-invocation helper
(`call_get_descriptor`); if the subject's own MRO holds a plain attribute
(no `__get__` on its type), that attribute is returned — the set-without-get
metatype attribute behaves as non-data. -/
theorem type_getattribute_set_without_get_nondata
    (cls cls2 nameStr noneObj mcl attr ac a ac2 : PyObject) (name : String)
    (hn : str_value nameStr = some name)
    (hm : cls.typ = some mcl)
    (h1 : get_attr mcl name = some attr)
    (h2 : attr.typ = some ac)
    (h3 : has_attr ac "__set__" = true)
    (h4 : get_attr ac "__get__" = none)
    (hmiss : get_attr cls name = none)
    (hm2 : cls2.typ = some mcl)
    (hhit : get_attr cls2 name = some a)
    (ha : a.typ = some ac2)
    (hg2 : get_attr ac2 "__get__" = none) :
    type_getattribute cls nameStr noneObj = .ok (.getDescriptor attr cls)
    ∧ type_getattribute cls2 nameStr noneObj = .ok (.plain a) := by
  constructor
  · simp only [type_getattribute, tga_step1, tga_step2, tga_step3, hn, hm,
      h1, h2, h3, h4, hmiss, if_true]
  · simp only [type_getattribute, tga_step1, tga_step2, tga_step3, hn, hm2,
      h1, h2, h3, h4, hhit, ha, hg2, if_true]

/-- C8 at a concrete input: metaclass `Meta3` holds `"z"` as a set-only
descriptor; subject `E` has no own `"z"` and gets the metatype attribute via
the generic helper; subject `F` has a plain own `"z"` and gets it. -/
theorem type_getattribute_set_without_get_nondata_witness :
    (str_value nameZ = some "z" ∧ subjA.typ = some meta3
      ∧ get_attr meta3 "z" = some attrS ∧ attrS.typ = some descClass2
      ∧ has_attr descClass2 "__set__" = true
      ∧ get_attr descClass2 "__get__" = none
      ∧ get_attr subjA "z" = none ∧ subjB.typ = some meta3
      ∧ get_attr subjB "z" = some plainZ ∧ plainZ.typ = some objT
      ∧ get_attr objT "__get__" = none)
    ∧ (type_getattribute subjA nameZ noneO = .ok (.getDescriptor attrS subjA)
      ∧ type_getattribute subjB nameZ noneO = .ok (.plain plainZ)) :=
  ⟨⟨rfl, rfl, rfl, rfl, rfl, rfl, rfl, rfl, rfl, rfl, rfl⟩,
    type_getattribute_set_without_get_nondata subjA subjB nameZ noneO meta3
      attrS descClass2 plainZ objT "z" rfl rfl rfl rfl rfl rfl rfl rfl rfl
      rfl rfl⟩

/-- C9: the ancestry queries are partial at the public interface: a
first argument whose kind is not `Class` makes `issubclass` abort (the
`unwrap` of the `None` MRO), and an object whose own type is not a class
makes `isinstance` and `base_classes` abort likewise; they are total only
under the precondition that the queried handle is a type. -/
theorem queries_abort_on_non_class
    (s c o t : PyObject)
    (hs : isClassObj s = false)
    (ho : o.typ = some t) (ht : isClassObj t = false) :
    issubclass s c = .abort ∧ isinstance o c = .abort
    ∧ base_classes o = .abort := by
  have hmro : ∀ x : PyObject, isClassObj x = false → _mro x = none := by
    intro x hx
    unfold isClassObj at hx
    unfold _mro
    cases hk : x.kind <;> simp_all
  refine ⟨?_, ?_, ?_⟩
  · simp only [issubclass, hmro s hs]
  · simp only [isinstance, ho, hmro t ht]
  · simp only [base_classes, ho, hmro t ht]

/-- C9 at a concrete input: an instance of `A` passed as `issubclass`'s
first argument, and an object whose `typ` is that instance. -/
theorem queries_abort_on_non_class_witness :
    (isClassObj instA = false ∧ oBad.typ = some instA
      ∧ isClassObj instA = false)
    ∧ (issubclass instA objT = .abort ∧ isinstance oBad objT = .abort
      ∧ base_classes oBad = .abort) :=
  ⟨⟨rfl, rfl, rfl⟩,
    queries_abort_on_non_class instA objT oBad instA rfl rfl rfl⟩

/-- C10: `type_new` with exactly two arguments whose first passes the
metatype check performs no construction and returns the second argument's own
type; the four-argument form is the one that constructs, delegating to `new`
with the extracted bases plus the appended universal root; any other argument
count is a type error. -/
theorem type_new_arity_dispatch
    (tt st dt ot typ0 obj t nameObj dictObj0 basesObj : PyObject)
    (els : List PyObject) (nm : String)
    (args' : List PyObject) (nid nid2 nid3 : Nat)
    (hchk : check_arg typ0 tt = .ok ())
    (hobj : obj.typ = some t)
    (hname : check_arg nameObj st = .ok ())
    (hdict : check_arg dictObj0 dt = .ok ())
    (hbases : basesObj.kind = .Tup els)
    (hnm : str_value nameObj = some nm)
    (hl2 : args'.length ≠ 2) (hl4 : args'.length ≠ 4) :
    type_new tt st dt ot [typ0, obj] nid = .ok t
    ∧ type_new tt st dt ot [typ0, nameObj, basesObj, dictObj0] nid2
        = new typ0 nm (els ++ [ot]) dictObj0 nid2
    ∧ type_new tt st dt ot args' nid3 = .err (.typeError ": type_new") := by
  have hext : extract_elements basesObj = .ok els := by
    unfold extract_elements; rw [hbases]
  refine ⟨?_, ?_, ?_⟩
  · simp only [type_new, hchk, hobj]
  · simp only [type_new, hchk, hname, hdict, hext, hnm]
  · match args' with
    | [] => rfl
    | [_] => rfl
    | [_, _] => exact absurd rfl hl2
    | [_, _, _] => rfl
    | [_, _, _, _] => exact absurd rfl hl4
    | _ :: _ :: _ :: _ :: _ :: _ => rfl

/-- C10 at a concrete input: the type-query form `type(x)` on an instance of
`A`, the four-argument construction form, and a zero-argument call. -/
theorem type_new_arity_dispatch_witness :
    (check_arg aT typeT = .ok () ∧ instA.typ = some aT
      ∧ check_arg nameP strT = .ok () ∧ check_arg dictObj dictT = .ok ()
      ∧ basesTup.kind = .Tup [aT] ∧ str_value nameP = some "P"
      ∧ ([] : List PyObject).length ≠ 2 ∧ ([] : List PyObject).length ≠ 4)
    ∧ (type_new typeT strT dictT objT [aT, instA] 70 = .ok aT
      ∧ type_new typeT strT dictT objT [aT, nameP, basesTup, dictObj] 71
          = new aT "P" ([aT] ++ [objT]) dictObj 71
      ∧ type_new typeT strT dictT objT [] 72
          = .err (.typeError ": type_new")) :=
  ⟨⟨rfl, rfl, rfl, rfl, rfl, rfl, by decide, by decide⟩,
    type_new_arity_dispatch typeT strT dictT objT aT instA aT nameP dictObj
      basesTup [aT] "P" [] 70 71 72 rfl rfl rfl rfl rfl rfl (by decide)
      (by decide)⟩
